import Mathlib

/-!
Verification of the jrpc2 JSON-RPC 2.0 server core.

This file shallowly embeds the server dispatch pipeline, the read loop, the
option machinery, the chanutil framing catalog, and the LSP (header-framed)
channel receiver, and proves or refutes the frozen specification claims about
them.

Raw JSON payloads (ids, params, results) pass through the Go code as opaque
byte slices; they are modelled as `String` (with `Option String` standing for
a nil `json.RawMessage`). Go `error` values handed back by handlers are
modelled by the tagged sum `GoError`, mirroring the three dynamic cases the
code discriminates (`*Error`, `Code`, anything else). Handler panics are
modelled explicitly so that propagation (or absence of recovery) is visible.
-/

set_option autoImplicit false

namespace JRPC2

/-- Modelled from the spec: the protocol version marker required to equal "2.0"
(spec section 3); the `Version` constant itself is not under src/. -/
def Version : String := "2.0"

/-- Modelled from the spec: stable numeric code for ParseError (spec section 4.6);
the constant declaration is not under src/. -/
def E_ParseError : Int := -32700

/-- Modelled from the spec: stable numeric code for InvalidRequest. -/
def E_InvalidRequest : Int := -32600

/-- Modelled from the spec: stable numeric code for MethodNotFound. -/
def E_MethodNotFound : Int := -32601

/-- Modelled from the spec: stable numeric code for InvalidParams. -/
def E_InvalidParams : Int := -32602

/-- Modelled from the spec: stable numeric code for InternalError. -/
def E_InternalError : Int := -32603

/-- Modelled from the spec: canonical name of a code, used for the message of a
bare-`Code` handler error (spec section 4.4: a bare integer code maps to the
code with message = the code's canonical name); `Code.Error` is not under src/. -/
def codeMessage (c : Int) : String :=
  if c = E_ParseError then "parse error"
  else if c = E_InvalidRequest then "invalid request"
  else if c = E_MethodNotFound then "method not found"
  else if c = E_InvalidParams then "invalid parameters"
  else if c = E_InternalError then "internal error"
  else "error code " ++ toString c

/-- The wire error object `jerror` (code and message; the optional data field is
not consulted by any of the embedded code paths). -/
structure jerror where
  Code : Int
  Msg : String
deriving DecidableEq, Repr

/-- The wire request record `jrequest`: version marker `V`, raw id `ID` (`none`
models a nil `json.RawMessage`, i.e. an absent id / notification), method name
`M`, raw params `P`. -/
structure jrequest where
  V : String
  ID : Option String
  M : String
  P : Option String
deriving DecidableEq, Repr

/-- The wire response record `jresponse`. -/
structure jresponse where
  V : String
  ID : Option String
  R : Option String
  E : Option jerror
deriving DecidableEq, Repr

/-- Go `string(req.ID)`: a nil raw message converts to the empty string. -/
def idString (id : Option String) : String := id.getD ""

/-- The effect of the `%q` format verb on the embedded message strings
(quotation; escaping of special characters inside the name is not modelled). -/
def quoteStr (s : String) : String := "\"" ++ s ++ "\""

/-- A request context, as produced by the server's `reqctx` hook.
`background` is `context.Background()`; `custom` stands for any other context a
`ReqContext` option may produce. -/
inductive Ctx where
  | background
  | custom (tag : Nat)
deriving DecidableEq, Repr

/-- The parsed `Request` handed to a handler: raw id, method name, raw params. -/
structure Request where
  id : Option String
  method : String
  params : Option String
deriving DecidableEq, Repr

/-- A Go `error` value returned by a handler, discriminated the way
`tasks.responses` discriminates it: a structured `*Error` (as built by
`Errorf`), a bare `Code`, or any other error (carrying its string form). -/
inductive GoError where
  | errObj (code : Int) (message : String)
  | codeErr (code : Int)
  | other (msg : String)
deriving DecidableEq, Repr

/-- The outcome of `m.Call`: a marshalled result value, an error, or a panic.
The result of a successful call is modelled as the raw JSON that
`json.Marshal` produces for it. -/
inductive CallResult where
  | ok (v : String)
  | err (e : GoError)
  | panics (msg : String)
deriving DecidableEq, Repr

/-- A `Method` handler: `Call(ctx, req)`. -/
def Method := Ctx → Request → CallResult

/-- An `Assigner`: maps a method name to a handler or reports absence. -/
def Assigner := String → Option Method

/-- The server fields relevant to the embedded code paths: the assigner `mux`,
the semaphore capacity `semCap` (`sem`), the v1-tolerance flag `allow1`, the
per-request context hook `reqctx`, and whether a connection is bound
(`closer`, true when `s.closer != nil`). Logging is side-effect only and is
not modelled. -/
structure Server where
  mux : Assigner
  semCap : Int
  allow1 : Bool
  reqctx : Request → Ctx
  closer : Bool

/-- A `ServerOption`, one constructor per option in opts.go. `serverLog`
replaces only the (unmodelled) log sink. -/
inductive ServerOption where
  | serverLog
  | allowV1 (ok : Bool)
  | concurrency (n : Int)
  | reqContext (f : Request → Ctx)

/-- Application of one option to the server, as the option closures do.
`Concurrency` clamps values below 1 to 1 before installing the semaphore. -/
def applyOption (s : Server) : ServerOption → Server
  | .serverLog => s
  | .allowV1 ok => { s with allow1 := ok }
  | .concurrency n => { s with semCap := if n < 1 then 1 else n }
  | .reqContext f => { s with reqctx := f }

/-- `NewServer(mux, opts...)`: panics (modelled as `.error`) when `mux` is nil,
otherwise builds the default server (semaphore capacity 1, background request
context, no connection bound) and applies the options in order. -/
def NewServer (mux : Option Assigner) (opts : List ServerOption) :
    Except String Server :=
  match mux with
  | none => .error "nil assigner"
  | some m =>
      .ok (opts.foldl applyOption
        { mux := m, semCap := 1, allow1 := false,
          reqctx := fun _ => Ctx.background, closer := false })

/-- A framing constructor from the channel package, as selected by
`chanutil.Framing`. -/
inductive FramingKind where
  | chunked
  | decimal
  | line
  | lsp
  | rawJSON
  | varint
  | header (mimeType : String)
deriving DecidableEq, Repr

/-- The `framings` name table of chanutil.go (note: it has no "nul" entry). -/
def framings : List (String × FramingKind) :=
  [("chunked", FramingKind.chunked),
   ("decimal", FramingKind.decimal),
   ("line", FramingKind.line),
   ("lsp", FramingKind.lsp),
   ("raw", FramingKind.rawJSON),
   ("varint", FramingKind.varint)]

/-- `chanutil.Framing(name)`: when `strings.TrimPrefix(name, "header:")`
changes the string (i.e. the name starts with "header:") the remainder is the
MIME type for a header framing; otherwise the name is looked up in the table
(a missing key yields the zero value nil, modelled as `none`). -/
def Framing (name : String) : Option FramingKind :=
  if ("header:".data).isPrefixOf name.data then
    some (FramingKind.header (String.mk (name.data.drop 7)))
  else
    (framings.find? (fun p => p.1 == name)).map Prod.snd

/-- `Server.versionOK`: an empty marker is accepted iff v1 tolerance is on,
otherwise the marker must equal the spec version. -/
def versionOK (s : Server) (v : String) : Bool :=
  if v = "" then s.allow1 else v == Version

/-- `stringset.Set.Add` for a single id: reports whether the set changed, and
the set after the call (already-present ids leave the set unchanged). -/
def setAdd (id : String) (used : List String) : Bool × List String :=
  if id ∈ used then (false, used) else (true, used ++ [id])

/-- A dispatch task: the request, the resolved handler (if any), the error
slot and the result slot. -/
structure Task where
  req : jrequest
  m : Option Method
  err : Option GoError
  val : Option String

/-- The tail of the per-request disposition in `Server.nextRequest` (empty
method name, then assigner lookup), shared by the id-present and id-absent
paths. Preassigned errors are `Errorf(...)` values, i.e. structured errors. -/
def checkRequestTail (s : Server) (used : List String) (req : jrequest) :
    Task × List String :=
  if req.M = "" then
    ({ req := req, m := none,
       err := some (GoError.errObj E_InvalidRequest "empty method name"),
       val := none }, used)
  else
    match s.mux req.M with
    | none =>
        ({ req := req, m := none,
           err := some (GoError.errObj E_MethodNotFound
             ("no such method " ++ quoteStr req.M)),
           val := none }, used)
    | some m => ({ req := req, m := some m, err := none, val := none }, used)

/-- One iteration of the disposition loop in `Server.nextRequest` (lines
127-142): check the version marker, then (for a non-empty id) add the id to
the live-id set, rejecting it as a duplicate when the add reports no change,
then check the method name and consult the assigner. Returns the task and the
live-id set after the iteration. -/
def checkRequest (s : Server) (used : List String) (req : jrequest) :
    Task × List String :=
  if versionOK s req.V = false then
    ({ req := req, m := none,
       err := some (GoError.errObj E_InvalidRequest
         ("incorrect version marker " ++ quoteStr req.V)),
       val := none }, used)
  else
    if idString req.ID ≠ "" then
      match setAdd (idString req.ID) used with
      | (added, used1) =>
          if added = false then
            ({ req := req, m := none,
               err := some (GoError.errObj E_InvalidRequest
                 ("duplicate request id " ++ quoteStr (idString req.ID))),
               val := none }, used1)
          else checkRequestTail s used1 req
    else checkRequestTail s used req

/-- The whole disposition loop: fold `checkRequest` over the dequeued batch,
threading the live-id set. -/
def checkRequests (s : Server) : List String → List jrequest → List Task × List String
  | used, [] => ([], used)
  | used, req :: rest =>
      let tu := checkRequest s used req
      let rest1 := checkRequests s tu.2 rest
      (tu.1 :: rest1.1, rest1.2)

/-- The outcome of `Server.dispatch`: either a (value, error) pair, or a panic
that escaped the handler. -/
inductive DispatchResult where
  | ok (val : Option String) (err : Option GoError)
  | panicked (msg : String)
deriving Repr

/-- `Server.dispatch` (lines 178-188): call the handler with the context from
`reqctx`; a handler error on a notification is discarded, a handler error on a
call is returned, a handler value is marshalled. There is no recover in this
function (or anywhere on the request path), so a panic escaping the handler
propagates. -/
def dispatch (s : Server) (m : Method) (req : Request) : DispatchResult :=
  match m (s.reqctx req) req with
  | .panics msg => .panicked msg
  | .err e => if req.id = none then .ok none none else .ok none (some e)
  | .ok v => .ok (some v) none

/-- Execution of one task by the worker loop in the closure returned by
`nextRequest`: tasks with a preassigned error are skipped, the rest run
`dispatch` and store the result and error. A panic escaping the handler
aborts processing (modelled as `.error`). -/
def runTask (s : Server) (t : Task) : Except String Task :=
  match t.err with
  | some _ => .ok t
  | none =>
      match t.m with
      | none => .ok t
      | some m =>
          match dispatch s m { id := t.req.ID, method := t.req.M, params := t.req.P } with
          | .panicked msg => .error msg
          | .ok v e => .ok { t with val := v, err := e }

/-- Execution of all tasks of a batch (handlers run under the semaphore; the
batch waits for all of them, and the results land in task order). -/
def runTasks (s : Server) : List Task → Except String (List Task)
  | [] => .ok []
  | t :: ts =>
      match runTask s t with
      | .error msg => .error msg
      | .ok t1 =>
          match runTasks s ts with
          | .error msg => .error msg
          | .ok ts1 => .ok (t1 :: ts1)

/-- The response built for one task in `tasks.responses`: result when the
error slot is empty, otherwise the error mapped by dynamic type (structured
error, bare code, anything else becomes InternalError). -/
def taskResponse (t : Task) : jresponse :=
  { V := Version, ID := t.req.ID,
    R := if t.err = none then t.val else none,
    E := match t.err with
         | none => none
         | some (.errObj c msg) => some { Code := c, Msg := msg }
         | some (.codeErr c) => some { Code := c, Msg := codeMessage c }
         | some (.other msg) =>
             some { Code := E_InternalError, Msg := "internal error: " ++ msg } }

/-- `tasks.responses`: collect a response per task, skipping notifications
whose error slot is empty. -/
def Tasks.responses : List Task → List jresponse
  | [] => []
  | t :: ts =>
      if t.req.ID = none ∧ t.err = none then Tasks.responses ts
      else taskResponse t :: Tasks.responses ts

/-- The processing of one dequeued batch: the disposition loop of
`nextRequest` followed by the returned closure (run the tasks, assemble the
responses, send one message iff the response list is non-empty). Returns the
live-id set as it stands after the batch and the message sent, if any. Note
the closure never touches the live-id set. -/
def processBatch (s : Server) (used : List String) (batch : List jrequest) :
    Except String (List String × Option (List jresponse)) :=
  match runTasks s (checkRequests s used batch).1 with
  | .error msg => .error msg
  | .ok ts1 =>
      .ok ((checkRequests s used batch).2,
           if (Tasks.responses ts1).length ≠ 0 then some (Tasks.responses ts1) else none)

/-- The classes of error a `dec.Decode` call in the read loop can produce:
the two recoverable JSON error types the code names, a JSON syntax error, a
transport/framing failure, end of file, or anything else. -/
inductive JSONError where
  | unmarshalTypeError
  | unsupportedTypeError
  | syntaxError
  | framingError
  | eof
  | otherError (tag : Nat)
deriving DecidableEq, Repr

/-- `isRecoverableJSONError`: exactly `*json.UnmarshalTypeError` and
`*json.UnsupportedTypeError` are recoverable. -/
def isRecoverableJSONError : JSONError → Bool
  | .unmarshalTypeError => true
  | .unsupportedTypeError => true
  | _ => false

/-- One observed outcome of `dec.Decode(&in)`: a decoded batch, or an error. -/
inductive DecodeEvent where
  | ok (batch : List jrequest)
  | err (e : JSONError)
deriving DecidableEq, Repr

/-- The server run state the read loop manipulates: whether the closer is
still set, the recorded final error, the inbound queue, the messages written
to the outbound encoder (in order), and the number of condition-variable
broadcasts (waiter wakeups). -/
structure ReadState where
  closerOpen : Bool
  err : Option JSONError
  inq : List (List jrequest)
  outMsgs : List (List jresponse)
  broadcastCount : Nat
deriving DecidableEq, Repr

/-- The state set up by `Server.Start`: connection bound, no error, empty
queue. -/
def initialReadState : ReadState :=
  { closerOpen := true, err := none, inq := [], outMsgs := [], broadcastCount := 0 }

/-- `Server.stop`: a no-op when nothing is running, otherwise close the
connection, wake all waiters, and record the final error. -/
def stop (st : ReadState) (e : JSONError) : ReadState :=
  if st.closerOpen = false then st
  else { st with closerOpen := false, err := some e,
                 broadcastCount := st.broadcastCount + 1 }

/-- `Server.pushError`: encode a single error response with the given id
directly to the outbound encoder. -/
def pushError (st : ReadState) (id : Option String) (e : jerror) : ReadState :=
  { st with outMsgs := st.outMsgs ++ [[{ V := Version, ID := id, R := none, E := some e }]] }

/-- `Server.read` (lines 230-253) over a list of decode outcomes: a
recoverable JSON error emits a ParseError response with a null id and keeps
reading; any other error stops the server (recording the error, closing the
duplex, waking waiters), clears the inbound queue, and exits; an empty batch
emits an InvalidRequest response with a null id; a non-empty batch is queued
and waiters are signalled. -/
def readLoop (st : ReadState) : List DecodeEvent → ReadState
  | [] => st
  | ev :: rest =>
      match ev with
      | .err e =>
          if isRecoverableJSONError e then
            readLoop (pushError st none { Code := E_ParseError, Msg := "invalid JSON request message" }) rest
          else
            { stop st e with inq := [] }
      | .ok batch =>
          if batch.length = 0 then
            readLoop (pushError st none { Code := E_InvalidRequest, Msg := "empty request batch" }) rest
          else
            readLoop { st with inq := st.inq ++ [batch],
                               broadcastCount := st.broadcastCount + 1 } rest

/-- `Server.Wait`: after the workers exit it returns the recorded final
error. -/
def Wait (st : ReadState) : Option JSONError := st.err

/-- An inbound frame: a lone JSON object or a JSON array of requests. -/
inductive Frame where
  | single (req : jrequest)
  | batchF (reqs : List jrequest)

/-- Modelled from the spec: inbound frame decoding (spec section 4.2, batch
detection): a frame whose first non-blank byte is a bracket decodes as a
batch, and a singleton decodes wrapped as a one-element batch internally. The
`jrequests` custom unmarshaller that does this is not under src/. -/
def decodeFrame : Frame → List jrequest
  | .single r => [r]
  | .batchF rs => rs

/-- Whether the inbound frame was a batch. -/
def Frame.isBatch : Frame → Bool
  | .single _ => false
  | .batchF _ => true

/-- Modelled from the spec: the `jresponses` JSON marshalling used by `send`
and `pushError` is not under src/; spec section 8 scenario 1 shows a lone
response encoded as a bare JSON object and scenario 4 shows two responses
encoded as an array, so a response list encodes as an array exactly when its
length is not 1. The marshaller sees only the response list. -/
def encodesAsArray (rsps : List jresponse) : Bool := rsps.length != 1

/-- Frame-level processing: decode the frame and process the resulting batch. -/
def processFrame (s : Server) (used : List String) (f : Frame) :
    Except String (List String × Option (List jresponse)) :=
  processBatch s used (decodeFrame f)

/-- A handler that echoes its raw params (or "null" for absent params), used
as a concrete fixture. -/
def echoMethod : Method := fun _ req => .ok (req.params.getD "null")

/-- A handler that panics, used as a concrete fixture. -/
def panickingMethod : Method := fun _ _ => .panics "boom"

/-- A started server fixture whose assigner binds "test" to the echo handler
and nothing else. -/
def testServer : Server :=
  { mux := fun name => if name = "test" then some echoMethod else none,
    semCap := 1, allow1 := false, reqctx := fun _ => Ctx.background, closer := true }

/-- A started server fixture whose assigner binds every name to the panicking
handler. -/
def panicServer : Server :=
  { mux := fun _ => some panickingMethod,
    semCap := 1, allow1 := false, reqctx := fun _ => Ctx.background, closer := true }

/-- Whether a decode outcome terminates the read loop: any error that is not
a recoverable JSON error. -/
def fatalEvent : DecodeEvent → Bool
  | .ok _ => false
  | .err e => !(isRecoverableJSONError e)

/-- `bufio.Reader.ReadString` with delimiter LF over the remaining stream:
returns the bytes read (up to and including the first LF), whether EOF was
hit before a LF was found, and the unread remainder. -/
def readLine : List Char → List Char × Bool × List Char
  | [] => ([], true, [])
  | c :: cs =>
      if c = '\n' then ([c], false, cs)
      else
        ((readLine cs).1.cons c, (readLine cs).2.1, (readLine cs).2.2)

/-- `strings.TrimRight(raw, "\r\n")`: drop every trailing CR or LF. -/
def trimRightCRLF (l : List Char) : List Char :=
  (l.reverse.dropWhile (fun c => c == '\r' || c == '\n')).reverse

/-- `strings.SplitN(line, ":", 2)`: `some (before, after)` when the line
contains a colon (splitting at the first one), `none` when it does not (the
two-part split fails, len(parts) != 2). -/
def splitColon : List Char → Option (List Char × List Char)
  | [] => none
  | c :: cs =>
      if c = ':' then some ([], cs)
      else
        match splitColon cs with
        | none => none
        | some ab => some (ab.1.cons c, ab.2)

/-- `strings.ToLower` on a header name (ASCII case folding; the embedded
header names are ASCII). -/
def toLowerStr (l : List Char) : String := String.mk (l.map Char.toLower)

/-- The byte classes of Go `unicode.IsSpace` that fit in ASCII (space, tab,
newline, vertical tab, form feed, carriage return). -/
def isSpaceGo (c : Char) : Bool :=
  c == ' ' || c == '\t' || c == '\n' || c == '\x0b' || c == '\x0c' || c == '\r'

/-- `strings.TrimSpace` on a header value. -/
def trimSpace (l : List Char) : String :=
  String.mk (((l.dropWhile isSpaceGo).reverse.dropWhile isSpaceGo).reverse)

/-- Assignment `h[k] = v` into the Go header map (replace the binding if the
key is present, append otherwise). -/
def insertHeader : List (String × String) → String → String → List (String × String)
  | [], k, v => [(k, v)]
  | (k0, v0) :: rest, k, v =>
      if k0 = k then (k, v) :: rest else (k0, v0) :: insertHeader rest k v

/-- Go map lookup `h[k]` (with `none` for a missing key). -/
def lookupHeader : List (String × String) → String → Option String
  | [], _ => none
  | (k0, v0) :: rest, k => if k0 = k then some v0 else lookupHeader rest k

/-- The header loop of `LSP.Recv`: read a line, trim trailing CR/LF; a
non-blank line must contain a colon (else "invalid header line") and is
stored under its lowercased name with surrounding space trimmed from the
value; the loop ends at EOF or at a blank line, yielding the header map and
the unread remainder. (In the flat model the only read error is EOF.) -/
def recvHeaders (hm : List (String × String)) (input : List Char) :
    Except String (List (String × String) × List Char) :=
  if hbl : trimRightCRLF (readLine input).1 = [] then
    .ok (hm, (readLine input).2.2)
  else
    match splitColon (trimRightCRLF (readLine input).1) with
    | none => .error "invalid header line"
    | some kv =>
        if (readLine input).2.1 then
          .ok (insertHeader hm (toLowerStr kv.1) (trimSpace kv.2), (readLine input).2.2)
        else
          recvHeaders (insertHeader hm (toLowerStr kv.1) (trimSpace kv.2))
            (readLine input).2.2
termination_by input.length
decreasing_by
  have hlen : ∀ cs : List Char,
      (readLine cs).1.length + (readLine cs).2.2.length = cs.length := by
    intro cs
    induction cs with
    | nil => simp [readLine]
    | cons c cs ih =>
        by_cases hc : c = '\n'
        · simp [readLine, hc]
          omega
        · simp only [readLine, if_neg hc, List.cons.injEq, List.length_cons]
          omega
  have hne : (readLine input).1 ≠ [] := by
    intro h0
    exact hbl (by rw [h0]; rfl)
  have h1 : 0 < (readLine input).1.length := List.length_pos.mpr hne
  have h2 := hlen input
  omega

/-- `strconv.Atoi`: an optionally signed run of decimal digits (empty or
non-digit input is an error; machine-width overflow is not modelled). -/
def digitsVal : List Char → Nat → Option Nat
  | [], acc => some acc
  | c :: cs, acc => if c.isDigit then digitsVal cs (acc * 10 + (c.toNat - 48)) else none

/-- The digits of a non-empty decimal numeral, as a natural number. -/
def digitsToNat : List Char → Option Nat
  | [] => none
  | l => digitsVal l 0

/-- `strconv.Atoi` over the trimmed header value. -/
def atoi (s : String) : Option Int :=
  match s.data with
  | '+' :: rest => (digitsToNat rest).map (fun n => (n : Int))
  | '-' :: rest => (digitsToNat rest).map (fun n => -(n : Int))
  | l => (digitsToNat l).map (fun n => (n : Int))

/-- `io.ReadFull(c.rd, data)` over the flat remainder: the first `n` bytes,
or an error when fewer than `n` remain (io.EOF / io.ErrUnexpectedEOF). -/
def readFull (n : Nat) (l : List Char) : Option (List Char) :=
  if l.length < n then none else some (l.take n)

/-- `io.ReadFull` against a reader whose successive primitive reads return
the given chunks (each Read call may deliver fewer bytes than requested):
keep reading whole chunks until `n` bytes are collected, failing when the
stream ends first. -/
def readFullChunks : Nat → List (List Char) → Option (List Char)
  | 0, _ => some []
  | _ + 1, [] => none
  | n + 1, c :: rest =>
      if n + 1 ≤ c.length then some (c.take (n + 1))
      else (readFullChunks (n + 1 - c.length) rest).map (fun tail => c ++ tail)

/-- The tail of `LSP.Recv` after the header loop: the mandatory
content-length lookup, `strconv.Atoi`, the negativity check, and the
full-read of the payload. -/
def recvBody (hm : List (String × String)) (rest : List Char) :
    Except String (List Char) :=
  match lookupHeader hm "content-length" with
  | none => .error "missing required content-length"
  | some clen =>
      match atoi clen with
      | none => .error "invalid content-length"
      | some size =>
          if size < 0 then .error "negative content-length"
          else
            match readFull size.toNat rest with
            | none => .error "unexpected EOF"
            | some data => .ok data

/-- `LSP.Recv` over the remaining stream: parse the header block, then read
the payload of the declared length. -/
def Recv (input : List Char) : Except String (List Char) :=
  match recvHeaders [] input with
  | .error e => .error e
  | .ok hr => recvBody hr.1 hr.2

theorem foldl_applyOption_closer (opts : List ServerOption) (s : Server) :
    (opts.foldl applyOption s).closer = s.closer := by
  induction opts generalizing s with
  | nil => rfl
  | cons o rest ih =>
      cases o <;> simp [List.foldl, applyOption, ih]

theorem isPrefixOf_append_self (l r : List Char) : l.isPrefixOf (l ++ r) = true := by
  induction l with
  | nil => simp [List.isPrefixOf]
  | cons c cs ih => simp [List.isPrefixOf, ih]

/-- C8: the framing catalog. The table covers "chunked", "decimal", "line",
"lsp", "raw" and "varint", and every "header:"-prefixed name maps to the
header framing for the MIME type after the prefix; but "nul" is absent from
the table, so Framing "nul" is nil, although the jcall usage text in the
repository documents nul as a supported framing. -/
theorem Framing_catalog :
    Framing "nul" = none ∧
    Framing "raw" = some FramingKind.rawJSON ∧
    Framing "line" = some FramingKind.line ∧
    Framing "decimal" = some FramingKind.decimal ∧
    Framing "varint" = some FramingKind.varint ∧
    Framing "lsp" = some FramingKind.lsp ∧
    Framing "chunked" = some FramingKind.chunked ∧
    ∀ t : String, Framing ("header:" ++ t) = some (FramingKind.header t) := by
  refine ⟨rfl, rfl, rfl, rfl, rfl, rfl, rfl, fun t => ?_⟩
  have hd : ("header:" ++ t).data = "header:".data ++ t.data := String.data_append _ _
  have hpre : (("header:".data).isPrefixOf ("header:".data ++ t.data)) = true :=
    isPrefixOf_append_self _ _
  simp only [Framing, hd, hpre, if_true]
  have h7 : (7 : Nat) = ("header:".data).length := rfl
  rw [h7, List.drop_left]

/-- C10: NewServer panics iff the assigner is nil; with a non-nil assigner it
returns, for any options, a server with no connection bound (unstarted), and
with no options it returns the defaults: semaphore capacity 1, background
request context, v1 tolerance off. -/
theorem NewServer_spec :
    (∀ opts, NewServer none opts = .error "nil assigner") ∧
    (∀ mux opts, ∃ s, NewServer (some mux) opts = .ok s ∧ s.closer = false) ∧
    (∀ mux, ∃ s, NewServer (some mux) [] = .ok s ∧ s.semCap = 1 ∧
      s.reqctx = (fun _ => Ctx.background) ∧ s.allow1 = false ∧
      s.closer = false ∧ s.mux = mux) := by
  refine ⟨fun _ => rfl, fun mux opts => ⟨_, rfl, ?_⟩, fun mux => ⟨_, rfl, rfl, rfl, rfl, rfl, rfl⟩⟩
  exact foldl_applyOption_closer opts _


/-- C1: refuted on the code. `Server.dispatch` calls the handler with no
recover anywhere on the request path, so a panic escaping the handler
propagates out of request processing instead of being caught and surfaced as
an InternalError response: dispatching the panicking handler yields a
propagated panic, and processing a batch that reaches it aborts with the
panic rather than producing any wire response. -/
theorem dispatch_panic_propagates :
    dispatch panicServer panickingMethod
      { id := some "1", method := "x", params := none } = .panicked "boom" ∧
    processBatch panicServer [] [{ V := "2.0", ID := some "1", M := "x", P := none }] =
      .error "boom" :=
  ⟨rfl, rfl⟩

theorem readLoop_nonfatal_eof (evts : List DecodeEvent) :
    ∀ st : ReadState, st.closerOpen = true →
      (∀ ev ∈ evts, fatalEvent ev = false) →
      Wait (readLoop st (evts ++ [DecodeEvent.err JSONError.eof])) = some JSONError.eof := by
  induction evts with
  | nil =>
      intro st hopen _
      simp [readLoop, isRecoverableJSONError, stop, hopen, Wait]
  | cons ev rest ih =>
      intro st hopen h
      have hrest : ∀ e ∈ rest, fatalEvent e = false := fun e he => h e (by simp [he])
      cases ev with
      | err e =>
          have hf : fatalEvent (DecodeEvent.err e) = false := h _ (by simp)
          have hrec : isRecoverableJSONError e = true := by
            simpa [fatalEvent] using hf
          simpa [readLoop, hrec] using ih _ (by simp [pushError, hopen]) hrest
      | ok batch =>
          by_cases hb : batch.length = 0
          · simpa [readLoop, hb] using ih _ (by simp [pushError, hopen]) hrest
          · simpa [readLoop, hb] using ih _ (by simp [hopen]) hrest

/-- C2 counterexample: a connection whose very first read observes a clean
peer EOF (no prior failure, no explicit stop) records io.EOF as the final
error, and Wait returns it — not nil. -/
theorem Wait_clean_eof_counterexample :
    Wait (readLoop initialReadState [DecodeEvent.err JSONError.eof]) = some JSONError.eof ∧
    Wait (readLoop initialReadState [DecodeEvent.err JSONError.eof]) ≠ none := by
  exact ⟨rfl, by decide⟩

/-- C2 amended: when the reader observes a clean peer EOF after any run of
non-fatal outcomes (and no explicit stop), the recorded final error is io.EOF
itself, and Wait returns io.EOF rather than nil; the listener loop in
server/loop.go compensates by discarding io.EOF from Wait at the call site. -/
theorem Wait_clean_eof (evts : List DecodeEvent)
    (h : ∀ ev ∈ evts, fatalEvent ev = false) :
    Wait (readLoop initialReadState (evts ++ [DecodeEvent.err JSONError.eof])) =
      some JSONError.eof :=
  readLoop_nonfatal_eof evts initialReadState rfl h

theorem Wait_clean_eof_witness :
    Wait (readLoop initialReadState
      ([DecodeEvent.ok [{ V := "2.0", ID := some "5", M := "test", P := none }]] ++
        [DecodeEvent.err JSONError.eof])) = some JSONError.eof :=
  Wait_clean_eof [DecodeEvent.ok [{ V := "2.0", ID := some "5", M := "test", P := none }]]
    (by decide)

/-- C7: in the read loop, exactly the two recoverable JSON error types (type
or shape mismatches) cause a single error response with a null id and code
-32700 to be written while reading continues; every other decode failure
(syntax error, framing error, EOF, anything else) is recorded as the final
error, the duplex is closed, waiters are woken by a broadcast, the inbound
queue is dropped, and the loop exits without consuming further input. -/
theorem read_error_handling :
    (∀ e : JSONError, isRecoverableJSONError e = true ↔
        (e = JSONError.unmarshalTypeError ∨ e = JSONError.unsupportedTypeError)) ∧
    (∀ (st : ReadState) (rest : List DecodeEvent) (e : JSONError),
        isRecoverableJSONError e = true →
        readLoop st (DecodeEvent.err e :: rest) =
          readLoop { st with outMsgs := st.outMsgs ++
            [[{ V := Version, ID := none, R := none,
                E := some { Code := -32700, Msg := "invalid JSON request message" } }]] }
            rest) ∧
    (∀ (st : ReadState) (rest : List DecodeEvent) (e : JSONError),
        isRecoverableJSONError e = false → st.closerOpen = true →
        readLoop st (DecodeEvent.err e :: rest) =
          { closerOpen := false, err := some e, inq := [],
            outMsgs := st.outMsgs, broadcastCount := st.broadcastCount + 1 }) := by
  refine ⟨fun e => ?_, fun st rest e hrec => ?_, fun st rest e hrec hopen => ?_⟩
  · cases e <;> simp [isRecoverableJSONError]
  · simp [readLoop, hrec, pushError]
    rfl
  · simp [readLoop, hrec, stop, hopen]

theorem read_error_handling_witness :
    readLoop initialReadState [DecodeEvent.err JSONError.syntaxError] =
      { closerOpen := false, err := some JSONError.syntaxError, inq := [],
        outMsgs := [], broadcastCount := 1 } ∧
    readLoop initialReadState [DecodeEvent.err JSONError.unmarshalTypeError] =
      { closerOpen := true, err := none, inq := [],
        outMsgs := [[{ V := Version, ID := none, R := none,
                       E := some { Code := -32700, Msg := "invalid JSON request message" } }]],
        broadcastCount := 0 } :=
  ⟨read_error_handling.2.2 initialReadState [] JSONError.syntaxError (by decide) rfl,
   by rw [read_error_handling.2.1 initialReadState [] JSONError.unmarshalTypeError (by decide)]
      rfl⟩

theorem setAdd_mem (id : String) (used : List String) (h : id ∈ used) :
    setAdd id used = (false, used) := by simp [setAdd, h]

theorem setAdd_not_mem (id : String) (used : List String) (h : ¬ id ∈ used) :
    setAdd id used = (true, used ++ [id]) := by simp [setAdd, h]

theorem checkRequestTail_snd (s : Server) (used : List String) (req : jrequest) :
    (checkRequestTail s used req).2 = used := by
  unfold checkRequestTail
  split
  · rfl
  · split <;> rfl

/-- C3: a request whose version marker is acceptable and whose non-empty id is
already in the live-id set when its disposition is computed gets a
preassigned InvalidRequest (-32600) duplicate-request-id error, the live-id
set is left unchanged (the id is not inserted again), the worker loop skips
the task, and the batch reply carries the -32600 duplicate-id error response
for that request. -/
theorem duplicate_id_rejected (s : Server) (used : List String) (req : jrequest)
    (hv : versionOK s req.V = true) (hid : idString req.ID ≠ "")
    (hmem : idString req.ID ∈ used) :
    checkRequest s used req =
      ({ req := req, m := none,
         err := some (GoError.errObj E_InvalidRequest
           ("duplicate request id " ++ quoteStr (idString req.ID))), val := none }, used) ∧
    runTask s (checkRequest s used req).1 = .ok (checkRequest s used req).1 ∧
    Tasks.responses [(checkRequest s used req).1] =
      [{ V := Version, ID := req.ID, R := none,
         E := some { Code := -32600,
                     Msg := "duplicate request id " ++ quoteStr (idString req.ID) } }] := by
  have hcr : checkRequest s used req =
      ({ req := req, m := none,
         err := some (GoError.errObj E_InvalidRequest
           ("duplicate request id " ++ quoteStr (idString req.ID))), val := none }, used) := by
    unfold checkRequest
    rw [setAdd_mem _ _ hmem]
    simp [hv, hid]
  refine ⟨hcr, ?_, ?_⟩
  · rw [hcr]
    rfl
  · rw [hcr]
    simp [Tasks.responses, taskResponse, E_InvalidRequest]

theorem duplicate_id_rejected_witness :
    checkRequest testServer ["1"] { V := "2.0", ID := some "1", M := "test", P := none } =
      ({ req := { V := "2.0", ID := some "1", M := "test", P := none }, m := none,
         err := some (GoError.errObj E_InvalidRequest
           ("duplicate request id " ++ quoteStr (idString (some "1")))), val := none }, ["1"]) :=
  (duplicate_id_rejected testServer ["1"]
    { V := "2.0", ID := some "1", M := "test", P := none }
    (by decide) (by decide) (by decide)).1

theorem checkRequest_used_sub (s : Server) (used : List String) (req : jrequest) :
    used ⊆ (checkRequest s used req).2 := by
  unfold checkRequest
  by_cases hv : versionOK s req.V = false
  · simp [hv]
  · by_cases hid : idString req.ID ≠ ""
    · by_cases hmem : idString req.ID ∈ used
      · rw [setAdd_mem _ _ hmem]
        simp [hv, hid]
      · rw [setAdd_not_mem _ _ hmem]
        simp [hv, hid, checkRequestTail_snd]
    · simp [hv, hid, checkRequestTail_snd]

theorem checkRequest_id_mem (s : Server) (used : List String) (req : jrequest)
    (hv : versionOK s req.V = true) (hid : idString req.ID ≠ "") :
    idString req.ID ∈ (checkRequest s used req).2 := by
  unfold checkRequest
  by_cases hmem : idString req.ID ∈ used
  · rw [setAdd_mem _ _ hmem]
    simpa [hv, hid] using hmem
  · rw [setAdd_not_mem _ _ hmem]
    simp [hv, hid, checkRequestTail_snd]

theorem checkRequests_used_sub (s : Server) (batch : List jrequest) :
    ∀ used, used ⊆ (checkRequests s used batch).2 := by
  induction batch with
  | nil => exact fun used a ha => ha
  | cons req rest ih =>
      intro used
      exact (checkRequest_used_sub s used req).trans (ih _)

theorem checkRequests_id_mem (s : Server) (batch : List jrequest) :
    ∀ used, ∀ req ∈ batch, versionOK s req.V = true → idString req.ID ≠ "" →
      idString req.ID ∈ (checkRequests s used batch).2 := by
  induction batch with
  | nil => intro used req h; simp at h
  | cons r rest ih =>
      intro used req hmem hv hid
      rcases List.mem_cons.mp hmem with h | h
      · subst h
        exact checkRequests_used_sub s rest _ (checkRequest_id_mem s used req hv hid)
      · exact ih _ req h hv hid

theorem processBatch_used (s : Server) (used : List String) (batch : List jrequest)
    (used1 : List String) (out : Option (List jresponse))
    (h : processBatch s used batch = .ok (used1, out)) :
    used1 = (checkRequests s used batch).2 := by
  unfold processBatch at h
  cases hr : runTasks s (checkRequests s used batch).1 with
  | error msg => rw [hr] at h; cases h
  | ok ts1 =>
      rw [hr] at h
      cases h
      rfl

/-- C4 counterexample: after a batch bearing id "1" has been fully processed
and its reply emitted, the live-id set still contains "1" (nothing removes
it), so a later request reusing id "1" is rejected as a duplicate. -/
theorem used_ids_retained_counterexample :
    processBatch testServer [] [{ V := "2.0", ID := some "1", M := "test", P := some "7" }] =
      .ok (["1"], some [{ V := Version, ID := some "1", R := some "7", E := none }]) ∧
    (checkRequest testServer ["1"] { V := "2.0", ID := some "1", M := "test", P := none }).1.err =
      some (GoError.errObj E_InvalidRequest ("duplicate request id " ++ quoteStr "1")) :=
  ⟨rfl, rfl⟩

/-- C4 amended: the ids a batch inserts into the live-id set are never removed
when the batch completes; the set only grows while the connection lives (Wait
discards the whole set after termination), so every non-empty id of a
version-acceptable request in a processed batch is still present afterwards
and a later reuse of it is rejected as a duplicate. -/
theorem used_ids_retained (s : Server) (used : List String) (batch : List jrequest)
    (used1 : List String) (out : Option (List jresponse))
    (h : processBatch s used batch = .ok (used1, out)) :
    used ⊆ used1 ∧
    (∀ req ∈ batch, versionOK s req.V = true → idString req.ID ≠ "" →
      idString req.ID ∈ used1) ∧
    (∀ req ∈ batch, versionOK s req.V = true → idString req.ID ≠ "" →
      (checkRequest s used1 req).1.err =
        some (GoError.errObj E_InvalidRequest
          ("duplicate request id " ++ quoteStr (idString req.ID)))) := by
  have hu := processBatch_used s used batch used1 out h
  subst hu
  refine ⟨checkRequests_used_sub s batch used, checkRequests_id_mem s batch used, ?_⟩
  intro req hmem hv hid
  have hm := checkRequests_id_mem s batch used req hmem hv hid
  unfold checkRequest
  rw [setAdd_mem _ _ hm]
  simp [hv, hid]

theorem used_ids_retained_witness :
    idString (some "1") ∈ ["1"] ∧ ([] : List String) ⊆ ["1"] := by
  have h := used_ids_retained testServer []
    [{ V := "2.0", ID := some "1", M := "test", P := some "7" }] ["1"]
    (some [{ V := Version, ID := some "1", R := some "7", E := none }]) rfl
  exact ⟨h.2.1 { V := "2.0", ID := some "1", M := "test", P := some "7" }
    (by decide) (by decide) (by decide), h.1⟩

theorem runTask_keeps (s : Server) (t t1 : Task) (h : runTask s t = .ok t1) :
    t1.req = t.req ∧ (t.req.ID = none → t1.err = t.err) := by
  unfold runTask at h
  cases he : t.err with
  | some e =>
      simp only [he, Except.ok.injEq] at h
      subst h
      exact ⟨rfl, fun _ => he⟩
  | none =>
      simp only [he] at h
      cases hm : t.m with
      | none =>
          simp only [hm, Except.ok.injEq] at h
          subst h
          exact ⟨rfl, fun _ => he⟩
      | some m =>
          simp only [hm] at h
          cases hd : dispatch s m { id := t.req.ID, method := t.req.M, params := t.req.P } with
          | panicked msg =>
              simp only [hd] at h
              cases h
          | ok v e =>
              simp only [hd, Except.ok.injEq] at h
              subst h
              refine ⟨rfl, fun hID => ?_⟩
              show e = none
              unfold dispatch at hd
              cases hcall : m (s.reqctx { id := t.req.ID, method := t.req.M, params := t.req.P })
                  { id := t.req.ID, method := t.req.M, params := t.req.P } with
              | panics msg =>
                  simp only [hcall] at hd
                  cases hd
              | err e0 =>
                  simp only [hcall] at hd
                  simp [hID, DispatchResult.ok.injEq] at hd
                  exact hd.2.symm
              | ok v0 =>
                  simp only [hcall, DispatchResult.ok.injEq] at hd
                  exact hd.2.symm

theorem runTask_included (s : Server) (t t1 : Task) (h : runTask s t = .ok t1) :
    t1.req = t.req ∧
    ((t1.req.ID = none ∧ t1.err = none) ↔ (t.req.ID = none ∧ t.err = none)) := by
  obtain ⟨hreq, herr⟩ := runTask_keeps s t t1 h
  refine ⟨hreq, ?_⟩
  by_cases hID : t.req.ID = none
  · rw [hreq, herr hID]
  · rw [hreq]
    exact ⟨fun c => absurd c.1 hID, fun c => absurd c.1 hID⟩

theorem filter_resp_cons (t : Task) (ts : List Task) :
    (List.filter (fun t => !(t.req.ID.isNone && t.err.isNone)) (t :: ts)).length =
      (if t.req.ID = none ∧ t.err = none then 0 else 1) +
      (List.filter (fun t => !(t.req.ID.isNone && t.err.isNone)) ts).length := by
  cases hI : t.req.ID with
  | none =>
      cases hE : t.err with
      | none => simp [List.filter_cons, hI, hE]
      | some e => simp [List.filter_cons, hI, hE, Nat.add_comm]
  | some a =>
      cases hE : t.err with
      | none => simp [List.filter_cons, hI, hE, Nat.add_comm]
      | some e => simp [List.filter_cons, hI, hE, Nat.add_comm]

theorem responses_spec (s : Server) (ts : List Task) :
    ∀ ts1, runTasks s ts = .ok ts1 →
    (Tasks.responses ts1).length =
      (ts.filter (fun t => !(t.req.ID.isNone && t.err.isNone))).length ∧
    (Tasks.responses ts1 = [] ↔ ∀ t ∈ ts, t.req.ID = none ∧ t.err = none) := by
  induction ts with
  | nil =>
      intro ts1 h
      cases h
      simp [Tasks.responses]
  | cons t ts ih =>
      intro ts1 h
      unfold runTasks at h
      cases h1 : runTask s t with
      | error msg => rw [h1] at h; cases h
      | ok t1 =>
          rw [h1] at h
          cases h2 : runTasks s ts with
          | error msg => rw [h2] at h; cases h
          | ok ts2 =>
              rw [h2] at h
              cases h
              obtain ⟨hreq, hiff⟩ := runTask_included s t t1 h1
              obtain ⟨ihlen, ihnil⟩ := ih ts2 h2
              by_cases hC : t.req.ID = none ∧ t.err = none
              · have hC1 : t1.req.ID = none ∧ t1.err = none := hiff.mpr hC
                constructor
                · rw [show Tasks.responses (t1 :: ts2) = Tasks.responses ts2 by
                      simp [Tasks.responses, hC1]]
                  rw [filter_resp_cons, if_pos hC, ihlen]
                  simp
                · rw [show Tasks.responses (t1 :: ts2) = Tasks.responses ts2 by
                      simp [Tasks.responses, hC1]]
                  rw [ihnil]
                  simp [hC]
              · have hC1 : ¬ (t1.req.ID = none ∧ t1.err = none) := fun c => hC (hiff.mp c)
                constructor
                · rw [show Tasks.responses (t1 :: ts2) =
                        taskResponse t1 :: Tasks.responses ts2 by
                      simp [Tasks.responses, hC1]]
                  rw [filter_resp_cons, if_neg hC]
                  simp only [List.length_cons, ihlen]
                  omega
                · rw [show Tasks.responses (t1 :: ts2) =
                        taskResponse t1 :: Tasks.responses ts2 by
                      simp [Tasks.responses, hC1]]
                  simp only [List.mem_cons]
                  constructor
                  · intro hfalse; cases hfalse
                  · intro hall
                    exact absurd (hall t (Or.inl rfl)) hC

/-- C5 counterexample: a batch consisting of a single notification (k = 1,
n = 1) whose method is unknown, with no batch-level error, makes the server
emit one outbound message containing one MethodNotFound error response with a
null id — the claim requires no outbound message for an all-notification
batch, and k − n = 0 responses otherwise. -/
theorem batch_reply_counterexample :
    processBatch testServer [] [{ V := "2.0", ID := none, M := "nope", P := none }] =
      .ok ([], some [{ V := Version, ID := none, R := none,
                       E := some { Code := E_MethodNotFound,
                                   Msg := "no such method " ++ quoteStr "nope" } }]) :=
  rfl

/-- C5 amended: for a dequeued batch whose handlers do not panic, the server
emits no outbound message iff every task is a notification with no
precomputed disposition error, and otherwise emits exactly one message whose
response count equals the number of tasks that either bear an id or carry a
precomputed disposition error — i.e. k − n calls plus every notification
whose disposition failed (bad version, duplicate id, empty method, or unknown
method); notification handler errors are discarded and add nothing. -/
theorem batch_reply_rule (s : Server) (used : List String) (batch : List jrequest)
    (used1 : List String) (out : Option (List jresponse))
    (h : processBatch s used batch = .ok (used1, out)) :
    (out = none ↔
      ∀ t ∈ (checkRequests s used batch).1, t.req.ID = none ∧ t.err = none) ∧
    (∀ rsps, out = some rsps →
      rsps.length = ((checkRequests s used batch).1.filter
        (fun t => !(t.req.ID.isNone && t.err.isNone))).length) := by
  unfold processBatch at h
  cases hr : runTasks s (checkRequests s used batch).1 with
  | error msg => rw [hr] at h; cases h
  | ok ts1 =>
      rw [hr] at h
      cases h
      obtain ⟨hlen, hnil⟩ := responses_spec s (checkRequests s used batch).1 ts1 hr
      constructor
      · constructor
        · intro hout
          by_cases hz : (Tasks.responses ts1).length ≠ 0
          · simp [hz] at hout
          · exact hnil.mp (by simpa using List.length_eq_zero.mp (by simpa using hz))
        · intro hall
          have : Tasks.responses ts1 = [] := hnil.mpr hall
          simp [this]
      · intro rsps hout
        by_cases hz : (Tasks.responses ts1).length ≠ 0
        · rw [if_pos hz] at hout
          cases hout
          exact hlen
        · rw [if_neg hz] at hout
          cases hout

theorem batch_reply_rule_witness :
    ((checkRequests testServer [] [{ V := "2.0", ID := some "2", M := "test", P := none }]).1.filter
      (fun t => !(t.req.ID.isNone && t.err.isNone))).length = 1 := by
  have h := batch_reply_rule testServer []
    [{ V := "2.0", ID := some "2", M := "test", P := none }] ["2"]
    (some [{ V := Version, ID := some "2", R := some "null", E := none }]) rfl
  exact (h.2 [{ V := Version, ID := some "2", R := some "null", E := none }] rfl).symm

/-- C6 counterexample: an inbound batch frame holding one call produces a
non-empty reply of exactly one response, which the response marshaller (a
function of the response list alone) encodes as a bare singleton object, not
as a JSON array — contradicting the claim that a batch inbound always gets an
array-shaped reply. -/
theorem send_shape_counterexample :
    processFrame testServer [] (Frame.batchF [{ V := "2.0", ID := some "3", M := "test", P := some "true" }]) =
      .ok (["3"], some [{ V := Version, ID := some "3", R := some "true", E := none }]) ∧
    Frame.isBatch (Frame.batchF [{ V := "2.0", ID := some "3", M := "test", P := some "true" }]) = true ∧
    encodesAsArray [{ V := Version, ID := some "3", R := some "true", E := none }] = false :=
  ⟨rfl, rfl, rfl⟩

/-- C6 amended: the reply's wire shape is a function of the response list
alone, not of the inbound frame's shape — a singleton inbound with a
non-empty reply is encoded as a singleton object (that direction of the claim
holds), but a one-element batch goes through the identical pipeline and gets
the identical singleton-object reply. -/
theorem send_shape_rule (s : Server) (used : List String) (r : jrequest)
    (used1 : List String) (rsps : List jresponse)
    (h : processFrame s used (Frame.single r) = .ok (used1, some rsps)) :
    encodesAsArray rsps = false ∧
    processFrame s used (Frame.single r) = processFrame s used (Frame.batchF [r]) := by
  refine ⟨?_, rfl⟩
  have hpf : processFrame s used (Frame.single r) = processBatch s used [r] := rfl
  rw [hpf] at h
  unfold processBatch at h
  cases hr : runTasks s (checkRequests s used [r]).1 with
  | error msg => rw [hr] at h; cases h
  | ok ts1 =>
      rw [hr] at h
      have h0 := Except.ok.inj h
      have hout : (if (Tasks.responses ts1).length ≠ 0 then some (Tasks.responses ts1)
          else none) = some rsps := congrArg Prod.snd h0
      obtain ⟨hlen, -⟩ := responses_spec s (checkRequests s used [r]).1 ts1 hr
      have hts : (checkRequests s used [r]).1 = [(checkRequest s used r).1] := rfl
      have hle : ((checkRequests s used [r]).1.filter
          (fun t => !(t.req.ID.isNone && t.err.isNone))).length ≤ 1 := by
        rw [hts, List.filter_cons]
        split <;> simp
      by_cases hz : (Tasks.responses ts1).length ≠ 0
      · rw [if_pos hz] at hout
        have hrsps : Tasks.responses ts1 = rsps := Option.some.inj hout
        have h1 : (Tasks.responses ts1).length = 1 := by omega
        rw [← hrsps]
        simp [encodesAsArray, h1]
      · rw [if_neg hz] at hout
        cases hout

theorem send_shape_rule_witness :
    encodesAsArray [{ V := Version, ID := some "9", R := some "[]", E := none }] = false :=
  (send_shape_rule testServer [] { V := "2.0", ID := some "9", M := "test", P := some "[]" }
    ["9"] [{ V := Version, ID := some "9", R := some "[]", E := none }] rfl).1

theorem readLine_append (l rest : List Char) (hnl : '\n' ∉ l) :
    readLine (l ++ '\n' :: rest) = (l ++ ['\n'], false, rest) := by
  induction l with
  | nil => simp [readLine]
  | cons c cs ih =>
      have hc : c ≠ '\n' := fun h => hnl (by simp [h])
      have hcs : '\n' ∉ cs := fun h => hnl (by simp [h])
      simp [readLine, hc, ih hcs]

theorem trimRightCRLF_append_nl (l : List Char) :
    trimRightCRLF (l ++ ['\n']) = trimRightCRLF l := by
  simp [trimRightCRLF, List.reverse_append]

theorem mem_of_mem_trimRightCRLF (x : Char) (l : List Char)
    (h : x ∈ trimRightCRLF l) : x ∈ l := by
  have h1 : x ∈ l.reverse.dropWhile (fun c => c == '\r' || c == '\n') := by
    simpa [trimRightCRLF] using h
  exact List.mem_reverse.mp ((List.dropWhile_sublist _).subset h1)

theorem splitColon_eq_none (l : List Char) (h : ':' ∉ l) : splitColon l = none := by
  induction l with
  | nil => rfl
  | cons c cs ih =>
      have hc : c ≠ ':' := fun hh => h (by simp [hh])
      have hcs : ':' ∉ cs := fun hh => h (by simp [hh])
      simp [splitColon, hc, ih hcs]

theorem recvHeaders_invalid_line (hm0 : List (String × String)) (l rest : List Char)
    (hnl : '\n' ∉ l) (hcol : ':' ∉ l) (hblank : trimRightCRLF l ≠ []) :
    recvHeaders hm0 (l ++ '\n' :: rest) = .error "invalid header line" := by
  have hsc : splitColon (trimRightCRLF l) = none :=
    splitColon_eq_none _ (fun hmem => hcol (mem_of_mem_trimRightCRLF _ _ hmem))
  rw [recvHeaders]
  simp only [readLine_append l rest hnl, trimRightCRLF_append_nl]
  rw [dif_neg hblank]
  simp [hsc]

theorem lookupHeader_insertHeader (hm : List (String × String)) (k v : String) :
    lookupHeader (insertHeader hm k v) "content-length" =
      if k = "content-length" then some v
      else lookupHeader hm "content-length" := by
  induction hm with
  | nil => simp [insertHeader, lookupHeader]
  | cons p rest ih =>
      obtain ⟨k0, v0⟩ := p
      by_cases h0 : k0 = k
      · subst h0
        by_cases hk : k0 = "content-length" <;>
          simp [insertHeader, lookupHeader, hk]
      · by_cases hk0 : k0 = "content-length"
        · subst hk0
          have hk : ¬ (k = "content-length") := fun hh => h0 hh.symm
          simp [insertHeader, lookupHeader, h0, hk]
        · by_cases hk : k = "content-length"
          · subst hk
            simp [insertHeader, lookupHeader, h0, hk0, ih]
          · simp [insertHeader, lookupHeader, h0, hk0, hk, ih]

theorem recvBody_congr (hm1 hm2 : List (String × String)) (rest : List Char)
    (h : lookupHeader hm1 "content-length" = lookupHeader hm2 "content-length") :
    recvBody hm1 rest = recvBody hm2 rest := by
  unfold recvBody
  rw [h]

theorem readFullChunks_flatten (chunks : List (List Char)) :
    ∀ n, readFullChunks n chunks = readFull n chunks.flatten := by
  induction chunks with
  | nil =>
      intro n
      cases n with
      | zero => simp [readFullChunks, readFull]
      | succ m => simp [readFullChunks, readFull]
  | cons c rest ih =>
      intro n
      cases n with
      | zero => simp [readFullChunks, readFull]
      | succ m =>
          by_cases hle : m + 1 ≤ c.length
          · have hlen : ¬ ((c :: rest).flatten.length < m + 1) := by
              simp only [List.flatten_cons, List.length_append]
              omega
            rw [show readFullChunks (m + 1) (c :: rest) = some (c.take (m + 1)) by
                  simp [readFullChunks, hle]]
            rw [readFull, if_neg hlen, List.flatten_cons,
                List.take_append_of_le_length hle]
          · have hck : readFullChunks (m + 1) (c :: rest) =
                (readFullChunks (m + 1 - c.length) rest).map (fun tail => c ++ tail) := by
              simp [readFullChunks, hle]
            rw [hck, ih]
            by_cases hlt : rest.flatten.length < m + 1 - c.length
            · have hlt2 : (c :: rest).flatten.length < m + 1 := by
                simp only [List.flatten_cons, List.length_append]
                omega
              rw [readFull, if_pos hlt, readFull, if_pos hlt2]
              rfl
            · have hlt2 : ¬ ((c :: rest).flatten.length < m + 1) := by
                simp only [List.flatten_cons, List.length_append]
                omega
              rw [readFull, if_neg hlt, readFull, if_neg hlt2]
              simp only [Option.map_some']
              rw [List.flatten_cons, List.take_append_eq_append_take]
              rw [show List.take (m + 1) c = c from List.take_of_length_le (by omega)]

/-- C9: the LSP receiver's error handling and payload read. A non-blank
header line without a colon is rejected; a header block whose map lacks
content-length is rejected; a content-length value that strconv.Atoi cannot
parse, or that parses negative, is rejected; header names are stored
lowercased, so any capitalisation of content-length is found and headers
under any other name never affect the result; and the payload read collects
exactly the bytes a flat full-read would, no matter how the underlying
reader fragments its chunks. -/
theorem LSP_Recv_spec :
    (∀ l rest : List Char, '\n' ∉ l → ':' ∉ l → trimRightCRLF l ≠ [] →
      Recv (l ++ '\n' :: rest) = .error "invalid header line") ∧
    (∀ (input : List Char) (hm : List (String × String)) (rest : List Char),
      recvHeaders [] input = .ok (hm, rest) →
      lookupHeader hm "content-length" = none →
      Recv input = .error "missing required content-length") ∧
    (∀ (input : List Char) (hm : List (String × String)) (rest : List Char) (v : String),
      recvHeaders [] input = .ok (hm, rest) →
      lookupHeader hm "content-length" = some v → atoi v = none →
      Recv input = .error "invalid content-length") ∧
    (∀ (input : List Char) (hm : List (String × String)) (rest : List Char)
        (v : String) (z : Int),
      recvHeaders [] input = .ok (hm, rest) →
      lookupHeader hm "content-length" = some v → atoi v = some z → z < 0 →
      Recv input = .error "negative content-length") ∧
    (∀ (hm : List (String × String)) (k : List Char) (v : String),
      lookupHeader (insertHeader hm (toLowerStr k) v) "content-length" =
        if toLowerStr k = "content-length" then some v
        else lookupHeader hm "content-length") ∧
    (∀ (hm1 hm2 : List (String × String)) (rest : List Char),
      lookupHeader hm1 "content-length" = lookupHeader hm2 "content-length" →
      recvBody hm1 rest = recvBody hm2 rest) ∧
    (∀ (n : Nat) (chunks : List (List Char)),
      readFullChunks n chunks = readFull n chunks.flatten) := by
  refine ⟨?_, ?_, ?_, ?_, ?_, recvBody_congr, fun n chunks => readFullChunks_flatten chunks n⟩
  · intro l rest hnl hcol hblank
    unfold Recv
    rw [recvHeaders_invalid_line [] l rest hnl hcol hblank]
  · intro input hm rest hrecv hlk
    unfold Recv
    rw [hrecv]
    show recvBody hm rest = Except.error "missing required content-length"
    unfold recvBody
    rw [hlk]
  · intro input hm rest v hrecv hlk hat
    unfold Recv
    rw [hrecv]
    show recvBody hm rest = Except.error "invalid content-length"
    unfold recvBody
    simp only [hlk, hat]
  · intro input hm rest v z hrecv hlk hat hz
    unfold Recv
    rw [hrecv]
    show recvBody hm rest = Except.error "negative content-length"
    unfold recvBody
    simp only [hlk, hat]
    rw [if_pos hz]
  · intro hm k v
    exact lookupHeader_insertHeader hm (toLowerStr k) v

theorem LSP_Recv_spec_witness :
    Recv ['X', '\n'] = .error "invalid header line" ∧
    Recv ['\n'] = .error "missing required content-length" ∧
    Recv ("content-length:x".data) = .error "invalid content-length" ∧
    Recv ("content-length:-5".data) = .error "negative content-length" ∧
    recvBody [("a", "1")] [] = recvBody [("b", "2")] [] := by
  have h1 : recvHeaders [] ['\n'] = .ok ([], []) := by
    rw [recvHeaders]
    rfl
  have h2 : recvHeaders [] ("content-length:x".data) =
      .ok ([("content-length", "x")], []) := by
    rw [recvHeaders]
    rfl
  have h3 : recvHeaders [] ("content-length:-5".data) =
      .ok ([("content-length", "-5")], []) := by
    rw [recvHeaders]
    rfl
  refine ⟨LSP_Recv_spec.1 ['X'] [] (by decide) (by decide) (by decide),
    LSP_Recv_spec.2.1 ['\n'] [] [] h1 rfl,
    LSP_Recv_spec.2.2.1 ("content-length:x".data) [("content-length", "x")] [] "x"
      h2 rfl (by decide),
    LSP_Recv_spec.2.2.2.1 ("content-length:-5".data) [("content-length", "-5")] []
      "-5" (-5) h3 rfl (by decide) (by decide),
    LSP_Recv_spec.2.2.2.2.2.1 [("a", "1")] [("b", "2")] [] (by decide)⟩

end JRPC2
